import Mathlib

/-!
Verification development for the EagleFrac pressurized phase-field fracture
solver (`eaglefrac-pressurized.cc`).  The definitions below are shallow
embeddings of the program's functions: machine reals are modelled as `ℚ`,
distributed vectors as lists or abstract types, and external collaborators
(mesh, linear solver, solution transfer) as function parameters.  All
definitions come first, all theorems after them.
-/

namespace EagleFrac

/-! ## Material constants (file-scope constants of the phase-field solver
source: `const double mu = 1000, lambda = 1e6; const double kappa = 1e-12,
gamma_c = 1, e = 1e-6;`) -/

def mu : ℚ := 1000

def lambda : ℚ := 10 ^ 6

def kappa : ℚ := 1 / 10 ^ 12

def gamma_c : ℚ := 1

def e : ℚ := 1 / 10 ^ 6

/-! ## Stress decomposition (`PhaseFieldSolver::get_stress_decomposition`)

The C++ code first obtains the spectrally clipped positive strain part from
`constitutive_model::get_strain_tensor_plus` (defined in
`ConstitutiveModel.cc`, an external module), then computes

    stress_tensor_plus  = 2*mu*strain_tensor_plus;
    stress_tensor_plus[0][0]  += lambda*trace_eps_pos;
    stress_tensor_plus[1][1]  += lambda*trace_eps_pos;
    stress_tensor_minus = 2*mu*(strain_tensor - strain_tensor_plus);
    stress_tensor_minus[0][0] += lambda*(trace_eps - trace_eps_pos);
    stress_tensor_minus[1][1] += lambda*(trace_eps - trace_eps_pos);

The positive strain part is taken as an input argument here, since its
computation lives outside this repository; note that the `lambda` terms are
added only to the `[0][0]` and `[1][1]` diagonal entries, whatever `dim` is. -/

/-- Adds `c` to the `[0][0]` and `[1][1]` entries of a matrix, exactly as the
two `+=` statements of the source do. -/
def add_diag01 {d : ℕ} (A : Matrix (Fin d) (Fin d) ℚ) (c : ℚ) :
    Matrix (Fin d) (Fin d) ℚ :=
  fun i j => if (i : ℕ) = (j : ℕ) ∧ (i : ℕ) < 2 then A i j + c else A i j

/-- Embedding of `PhaseFieldSolver::get_stress_decomposition`, with the
externally computed positive strain part `strain_tensor_plus` passed in as an
argument (its computation, `constitutive_model::get_strain_tensor_plus`, is in
`ConstitutiveModel.cc`, outside this repository). Returns the pair
`(stress_tensor_plus, stress_tensor_minus)`. -/
def get_stress_decomposition (d : ℕ)
    (strain_tensor strain_tensor_plus : Matrix (Fin d) (Fin d) ℚ) :
    Matrix (Fin d) (Fin d) ℚ × Matrix (Fin d) (Fin d) ℚ :=
  let trace_eps := Matrix.trace strain_tensor
  let trace_eps_pos := max trace_eps 0
  let stress_tensor_plus :=
    add_diag01 ((2 * mu) • strain_tensor_plus) (lambda * trace_eps_pos)
  let stress_tensor_minus :=
    add_diag01 ((2 * mu) • (strain_tensor - strain_tensor_plus))
      (lambda * (trace_eps - trace_eps_pos))
  (stress_tensor_plus, stress_tensor_minus)

/-! ## Residual assembly (`PhaseFieldSolver::assemble_rhs_vector`)

Per quadrature point `q` and local shape function `i`, the source accumulates

    double d_phi = old_phi_values[q] - old_old_phi_values[q];
    double phi_e = old_phi_values[q] + d_phi;  // extrapolated
    double phi = phi_values[q];
    local_rhs[i] +=
      ( ((1 - kappa)*phi_e*phi_e + kappa)*(stress_tensor_plus*eps_u_i)
      + (stress_tensor_minus*eps_u_i)
      + (1 - kappa)*phi*(stress_tensor_plus*strain_tensor[q])*xi_phi_i
      + gamma_c*(-1/e*(1 - phi)*xi_phi_i
                 + e*contract(grad_phi_values[q], grad_xi_phi_i)) ) * jxw;

where `A*B` on two symmetric tensors is the double contraction and
`contract` on two rank-1 tensors is the dot product. -/

/-- Double contraction of two `d×d` tensors (deal.II `operator*` on two
`SymmetricTensor<2,dim>`). -/
def ddot (d : ℕ) (A B : Matrix (Fin d) (Fin d) ℚ) : ℚ :=
  ∑ i, ∑ j, A i j * B i j

/-- Dot product of two rank-1 tensors (deal.II `contract`). -/
def contract (d : ℕ) (a b : Fin d → ℚ) : ℚ :=
  ∑ i, a i * b i

/-- The summand added to `local_rhs[i]` at quadrature point `q` in
`PhaseFieldSolver::assemble_rhs_vector`, translated verbatim.  The stress pair
is obtained from `get_stress_decomposition` on the strain at `q`; the
externally computed positive strain part is again an argument. -/
def local_rhs_summand (d : ℕ)
    (strain_q strain_plus_q eps_u_i : Matrix (Fin d) (Fin d) ℚ)
    (phi old_phi old_old_phi xi_phi_i : ℚ)
    (grad_phi_q grad_xi_phi_i : Fin d → ℚ) (jxw : ℚ) : ℚ :=
  let sd := get_stress_decomposition d strain_q strain_plus_q
  let d_phi := old_phi - old_old_phi
  let phi_e := old_phi + d_phi
  ( ((1 - kappa) * phi_e * phi_e + kappa) * ddot d sd.1 eps_u_i
    + ddot d sd.2 eps_u_i
    + (1 - kappa) * phi * ddot d sd.1 strain_q * xi_phi_i
    + gamma_c * (-1 / e * (1 - phi) * xi_phi_i
                 + e * contract d grad_phi_q grad_xi_phi_i) ) * jxw

/-! ## The Newton/active-set iteration (`PDSSolid::run`, inner loop)

The inner `while (newton_step < data.max_newton_iter)` loop: at every
iteration with `newton_step > 0` it assembles the residual, recomputes the
active set, zeroes the residual on the active set and computes its norm
(`error`), then tests

    if (phase_field_solver.active_set_changed(old_active_set) &&
        error < newton_tolerance) { break; }   // "Converged!"
    old_active_set = phase_field_solver.active_set;

and otherwise performs a Newton update (`solve_coupled_newton_step`) and
increments `newton_step`.  The per-iteration evaluation (active set and
masked residual norm as functions of the iteration at which they are
evaluated) is abstracted into the oracles `evalActiveSet` / `evalError`. -/

/-- Modelled from the spec: `PhaseFieldSolver::active_set_changed` is declared
in `PhaseFieldSolver.hpp`, which is not part of this repository's sources.
Per the spec's convergence rule ("**converged** iff the active-set membership
is unchanged from the previous iteration **and** residual norm < tolerance")
it reports whether the active-set membership is unchanged between consecutive
Newton iterations. -/
def active_set_changed (active_set old_active_set : Finset ℕ) : Bool :=
  decide (active_set = old_active_set)

/-- Outcome of the inner Newton loop: either the break at some iteration
count, or exhaustion of the iteration cap (`newton_step == max_newton_iter`). -/
inductive NewtonOutcome where
  | converged (newton_step : ℕ)
  | diverged
deriving DecidableEq

/-- The inner Newton loop of `PDSSolid::run`.  `fuel` is the number of
remaining iterations (`max_newton_iter - newton_step`), so the loop diverges
when it hits zero; at `newton_step = 0` no convergence test is made. -/
def newton_loop (newton_tolerance : ℚ)
    (evalActiveSet : ℕ → Finset ℕ) (evalError : ℕ → ℚ) :
    ℕ → ℕ → Finset ℕ → NewtonOutcome
  | 0, _, _ => .diverged
  | fuel + 1, newton_step, old_active_set =>
    if 0 < newton_step then
      if active_set_changed (evalActiveSet newton_step) old_active_set
          && decide (evalError newton_step < newton_tolerance) then
        .converged newton_step
      else
        newton_loop newton_tolerance evalActiveSet evalError
          fuel (newton_step + 1) (evalActiveSet newton_step)
    else
      newton_loop newton_tolerance evalActiveSet evalError
        fuel (newton_step + 1) old_active_set

/-- The entire Newton solve: start at `newton_step = 0` with the active set
inherited from before the loop, with `max_newton_iter` iterations available. -/
def newton_run (max_newton_iter : ℕ) (newton_tolerance : ℚ)
    (evalActiveSet : ℕ → Finset ℕ) (evalError : ℕ → ℚ)
    (initial_active_set : Finset ℕ) : NewtonOutcome :=
  newton_loop newton_tolerance evalActiveSet evalError
    max_newton_iter 0 initial_active_set

/-! ## Time-step control (`PDSSolid::run`, outer loop)

The per-attempt state of the outer time loop: simulated time, current and
previous step size, step counter, the `use_old_time_step_phi` flag, the mesh
and the three solution-history vectors.  The mesh type `M`, the
degree-of-freedom map type `D` and the vector type `V` are abstract; deal.II
collaborators (`execute_coarsening_and_refinement`, `distribute_dofs`,
`SolutionTransfer::interpolate`) are passed as functions. -/

structure SimState (M V : Type) where
  time : ℚ
  time_step : ℚ
  old_time_step : ℚ
  time_step_number : ℕ
  use_old_time_step_phi : Bool
  mesh : M
  solution : V
  old_solution : V
  old_old_solution : V
deriving DecidableEq

/-- Embedding of `PDSSolid::exectute_adaptive_refinement` (source spelling):
snapshot the three history vectors (`relevant_solution := solution`, then the
transfer is prepared on `{relevant_solution, old_solution, old_old_solution}`
— the pre-refinement state), execute coarsening/refinement, rebuild the
degree-of-freedom maps (`setup_dofs`, modelled by `dof_map` applied to the new
mesh), and interpolate the three snapshots onto the new map, the current one
into `solution` and the other two into `old_solution`/`old_old_solution`. -/
def exectute_adaptive_refinement {M D V : Type}
    (refine : M → M) (dof_map : M → D) (interp : D → D → V → V)
    (s : SimState M V) : SimState M V :=
  let relevant_solution := s.solution
  let tmp : List V := [relevant_solution, s.old_solution, s.old_old_solution]
  let old_dofs := dof_map s.mesh
  let new_mesh := refine s.mesh
  let new_dofs := dof_map new_mesh
  let interpolated := tmp.map (interp old_dofs new_dofs)
  { s with
    mesh := new_mesh,
    solution := interpolated.getD 0 relevant_solution,
    old_solution := interpolated.getD 1 relevant_solution,
    old_old_solution := interpolated.getD 2 relevant_solution }

/-- Outcome of the code following the Newton loop in one body of the outer
time loop: fatal abort (`throw SolverControl::NoConvergence`), jump back to
`redo_time_step` with a modified state, or acceptance of the step. -/
inductive StepOutcome (M V : Type) where
  | fatal
  | redo (s : SimState M V)
  | accept (s : SimState M V)
deriving DecidableEq

/-- The code of `PDSSolid::run` that follows the Newton loop, from
`if (newton_step == data.max_newton_iter)` to the end of the loop body:
on iteration-cap exhaustion, either throw (when `time_step/10 <
data.minimum_time_step`) or roll time back by the failed step, divide the
step by 10, advance by the new step, restore `solution` from `old_solution`,
set `use_old_time_step_phi`, and redo; otherwise, if adaptive steps are
configured and the refiner signals refinement, refine-and-transfer and redo;
otherwise accept (running the width solve and output, which do not touch the
modelled state except `use_old_time_step_phi := true` and
`old_time_step = time_step`). -/
def after_newton {M D V : Type} (minimum_time_step : ℚ) (n_adaptive_steps : ℕ)
    (max_newton_iter newton_step : ℕ)
    (refinement_needed : SimState M V → Bool)
    (refine : M → M) (dof_map : M → D) (interp : D → D → V → V)
    (s : SimState M V) : StepOutcome M V :=
  if newton_step = max_newton_iter then
    if s.time_step / 10 < minimum_time_step then
      StepOutcome.fatal
    else
      StepOutcome.redo
        { s with
          time := s.time - s.time_step + s.time_step / 10,
          time_step := s.time_step / 10,
          solution := s.old_solution,
          use_old_time_step_phi := true }
  else if 0 < n_adaptive_steps && refinement_needed s then
    StepOutcome.redo (exectute_adaptive_refinement refine dof_map interp s)
  else
    StepOutcome.accept
      { s with use_old_time_step_phi := true, old_time_step := s.time_step }

/-! ## Pressure field update

`PDSSolid::impose_pressure_values(max_value)` walks the locally owned
pressure cells in lockstep with the phase-field cells, computes the mean of
the phase-field values at the cell's quadrature points, and writes
`(mean_phi_value < 0.9) ? max_value : 0.0` into every pressure dof of the
cell.  The per-time-step update in `PDSSolid::run`, however, is
`pressure_owned_solution = pressure_value;` — a uniform assignment of the
time-dependent pressure value to every pressure dof; `impose_pressure_values`
is never called from `run`. -/

/-- A pressure cell: the phase-field values at its quadrature points and its
pressure dof indices. -/
structure PressureCell where
  phi_values : List ℚ
  local_dof_indices : List ℕ
deriving DecidableEq

/-- Mean of the phase-field values over the cell's quadrature points. -/
def mean_phi_value (c : PressureCell) : ℚ :=
  c.phi_values.sum / (c.phi_values.length : ℚ)

/-- Embedding of `PDSSolid::impose_pressure_values`: the list of
(dof index, value) writes it performs. -/
def impose_pressure_values (max_value : ℚ) (cells : List PressureCell) :
    List (ℕ × ℚ) :=
  cells.flatMap fun c =>
    c.local_dof_indices.map fun i =>
      (i, if mean_phi_value c < 9/10 then max_value else 0)

/-- The pressure update actually performed once per time step (attempt) in
`PDSSolid::run`: `pressure_owned_solution = pressure_value;`, i.e. every
pressure dof receives the time-dependent pressure value. -/
def run_pressure_update (pressure_value : ℚ) (cells : List PressureCell) :
    List (ℕ × ℚ) :=
  cells.flatMap fun c =>
    c.local_dof_indices.map fun i => (i, pressure_value)

/-! ## Command-line parsing (`parse_command_line`)

    std::string filename;
    if (argc < 2) { std::cout << "specify the file name" << std::endl; exit(1); }
    std::list<std::string> args;       // argv[1..argc-1]
    int arg_number = 1;
    while (args.size()) {
      if (arg_number == 1) filename = args.front();
      args.pop_front(); arg_number++;
    }
    return filename;
-/

/-- Result of command-line parsing: either the process exits with a status and
a printed message, or parsing returns a file name. -/
inductive ParseResult where
  | exited (status : ℕ) (message : String)
  | ok (filename : String)
deriving DecidableEq

/-- The `while (args.size())` loop of `parse_command_line`: `filename` is
overwritten by the front argument only when `arg_number == 1`. -/
def parse_args_loop : List String → ℕ → String → String
  | [], _, filename => filename
  | front :: rest, arg_number, filename =>
    parse_args_loop rest (arg_number + 1) (if arg_number = 1 then front else filename)

/-- Embedding of `parse_command_line`, on the argument vector `argv` (program
name included, so `argv.length` is `argc`). -/
def parse_command_line (argv : List String) : ParseResult :=
  if argv.length < 2 then ParseResult.exited 1 ("specify the file name")
  else ParseResult.ok (parse_args_loop (argv.drop 1) 1 (""))

/-! ## Theorems -/

/-- In the 2×2 case the two outputs always sum to the isotropic linear-elastic
stress `2μ ε + λ tr(ε) I`, for any positive strain part fed in. -/
theorem get_stress_decomposition_sum_2d
    (eps eps_plus : Matrix (Fin 2) (Fin 2) ℚ) :
    (get_stress_decomposition 2 eps eps_plus).1 +
      (get_stress_decomposition 2 eps eps_plus).2 =
      (2 * mu) • eps + (lambda * Matrix.trace eps) • (1 : Matrix (Fin 2) (Fin 2) ℚ) := by
  funext i j
  fin_cases i <;> fin_cases j <;>
    simp [get_stress_decomposition, add_diag01, Matrix.add_apply,
      Matrix.smul_apply, Matrix.sub_apply, Matrix.one_apply, smul_eq_mul] <;>
    ring

/-- In the 3×3 case the partition identity fails: at the identity strain
`ε = I` (all eigenvalues `1`, so the spec's spectral clipping gives `ε⁺ = ε = I`
and this is the argument fed in), the entry `(2,2)` of the sum misses the
`λ·tr(ε)` contribution, because the source adds it only to `[0][0]` and
`[1][1]`. -/
theorem get_stress_decomposition_sum_3d_fails :
    ¬ ((get_stress_decomposition 3 1 1).1 + (get_stress_decomposition 3 1 1).2 =
        (2 * mu) • (1 : Matrix (Fin 3) (Fin 3) ℚ) +
          (lambda * Matrix.trace (1 : Matrix (Fin 3) (Fin 3) ℚ)) • 1) := by
  intro h
  have h22 := congrFun (congrFun h 2) 2
  simp [get_stress_decomposition, add_diag01, Matrix.add_apply, Matrix.smul_apply,
    Matrix.sub_apply, Matrix.one_apply, Matrix.trace, Matrix.diag, mu, lambda,
    smul_eq_mul, Fin.sum_univ_three] at h22

/-- When every eigenvalue of the (symmetric, 2×2) strain tensor is
non-negative — equivalently `tr ε ≥ 0` and `det ε ≥ 0` — the spec's spectral
clipping leaves the tensor unchanged (`ε⁺ = ε`, so `ε` itself is passed as the
positive part), and the compression output of the decomposition is the zero
tensor; moreover the decomposition at `ε = 0` returns the pair of zero
tensors. -/
theorem stress_tensor_minus_zero_of_nonneg (eps : Matrix (Fin 2) (Fin 2) ℚ)
    (htr : 0 ≤ Matrix.trace eps) (hdet : 0 ≤ eps.det) :
    (get_stress_decomposition 2 eps eps).2 = 0 ∧
      get_stress_decomposition 2 0 0 = (0, 0) := by
  constructor
  · funext i j
    simp [get_stress_decomposition, add_diag01, Matrix.smul_apply, Matrix.sub_apply,
      max_eq_left htr, Matrix.zero_apply]
  · apply Prod.ext <;> funext i j <;>
      simp [get_stress_decomposition, add_diag01, Matrix.smul_apply, Matrix.sub_apply,
        Matrix.zero_apply]

/-- Witness for `stress_tensor_minus_zero_of_nonneg` at the concrete strain
`ε = I` (eigenvalues `1, 1`). -/
theorem stress_tensor_minus_zero_of_nonneg_witness :
    0 ≤ Matrix.trace (1 : Matrix (Fin 2) (Fin 2) ℚ) ∧
      0 ≤ Matrix.det (1 : Matrix (Fin 2) (Fin 2) ℚ) ∧
      ((get_stress_decomposition 2 1 1).2 = 0 ∧
        get_stress_decomposition 2 0 0 = (0, 0)) :=
  ⟨by simp, by simp, stress_tensor_minus_zero_of_nonneg 1 (by simp) (by simp)⟩

/-- In every rhs summand (hence at every quadrature point of every assembled
cell), the factor multiplying the tensile stress contraction
`stress_tensor_plus * eps_u_i` is the degraded modulus `(1−κ)·φ_e² + κ` with
`φ_e = φ_old + (φ_old − φ_old_old)` the linear extrapolation from the two
previous solutions: the summand decomposes as stated below, the first group
being the degraded tensile term. -/
theorem local_rhs_summand_degraded_modulus (d : ℕ)
    (strain_q strain_plus_q eps_u_i : Matrix (Fin d) (Fin d) ℚ)
    (phi old_phi old_old_phi xi_phi_i : ℚ)
    (grad_phi_q grad_xi_phi_i : Fin d → ℚ) (jxw : ℚ) :
    local_rhs_summand d strain_q strain_plus_q eps_u_i
        phi old_phi old_old_phi xi_phi_i grad_phi_q grad_xi_phi_i jxw =
      ( ((1 - kappa) * (old_phi + (old_phi - old_old_phi)) ^ 2 + kappa) *
          ddot d (get_stress_decomposition d strain_q strain_plus_q).1 eps_u_i
        + ddot d (get_stress_decomposition d strain_q strain_plus_q).2 eps_u_i
        + (1 - kappa) * phi *
            ddot d (get_stress_decomposition d strain_q strain_plus_q).1 strain_q *
            xi_phi_i
        + gamma_c * (-1 / e * (1 - phi) * xi_phi_i
                     + e * contract d grad_phi_q grad_xi_phi_i) ) * jxw := by
  simp only [local_rhs_summand]
  ring

/-- The loop never reports convergence at an iteration index below the one it
starts from. -/
theorem newton_loop_converged_ge (newton_tolerance : ℚ)
    (evalActiveSet : ℕ → Finset ℕ) (evalError : ℕ → ℚ) :
    ∀ (fuel newton_step : ℕ) (old_active_set : Finset ℕ) (j : ℕ),
      newton_loop newton_tolerance evalActiveSet evalError
          fuel newton_step old_active_set = .converged j →
      newton_step ≤ j := by
  intro fuel
  induction fuel with
  | zero => intro newton_step old_active_set j h; simp [newton_loop] at h
  | succ n ih =>
    intro newton_step old_active_set j h
    simp only [newton_loop] at h
    by_cases hs : 0 < newton_step
    · simp only [if_pos hs] at h
      by_cases hb : (active_set_changed (evalActiveSet newton_step) old_active_set
          && decide (evalError newton_step < newton_tolerance)) = true
      · rw [if_pos hb] at h
        cases h
        exact le_rfl
      · rw [if_neg hb] at h
        exact le_trans (Nat.le_succ newton_step) (ih _ _ _ h)
    · simp only [if_neg hs] at h
      exact le_trans (Nat.le_succ newton_step) (ih _ _ _ h)

/-- The Newton loop breaks out as converged at the iteration it is currently
evaluating exactly when both conditions hold there: the active set equals the
previous iteration's and the masked residual norm is strictly below the
Newton tolerance.  Satisfying only one of the two never counts: if either
fails, the loop does not report convergence at this iteration. -/
theorem newton_break_iff (newton_tolerance : ℚ)
    (evalActiveSet : ℕ → Finset ℕ) (evalError : ℕ → ℚ)
    (fuel newton_step : ℕ) (old_active_set : Finset ℕ)
    (h : 0 < newton_step) :
    newton_loop newton_tolerance evalActiveSet evalError
        (fuel + 1) newton_step old_active_set = .converged newton_step ↔
      (evalActiveSet newton_step = old_active_set ∧
        evalError newton_step < newton_tolerance) := by
  constructor
  · intro hc
    simp only [newton_loop, if_pos h] at hc
    by_cases hb : (active_set_changed (evalActiveSet newton_step) old_active_set
        && decide (evalError newton_step < newton_tolerance)) = true
    · simpa [active_set_changed, Bool.and_eq_true, decide_eq_true_eq] using hb
    · rw [if_neg hb] at hc
      have hge := newton_loop_converged_ge newton_tolerance evalActiveSet evalError
        fuel (newton_step + 1) (evalActiveSet newton_step) newton_step hc
      omega
  · intro hcond
    simp only [newton_loop, if_pos h]
    rw [if_pos]
    simp [active_set_changed, hcond.1, hcond.2]

/-- Witness for `newton_break_iff` at a concrete evaluation: iteration 1,
empty active set on both sides, error `0`, tolerance `1`. -/
theorem newton_break_iff_witness :
    (0 : ℕ) < 1 ∧
      (newton_loop 1 (fun _ => (∅ : Finset ℕ)) (fun _ => 0) (0 + 1) 1 ∅ =
          NewtonOutcome.converged 1 ↔
        ((fun _ => (∅ : Finset ℕ)) 1 = ∅ ∧ (fun _ => (0 : ℚ)) 1 < 1)) :=
  ⟨Nat.zero_lt_one,
    newton_break_iff 1 (fun _ => ∅) (fun _ => 0) 0 1 ∅ Nat.zero_lt_one⟩

/-- When the Newton loop exhausts its iteration cap, the controller aborts
fatally exactly when `Δt/10` is strictly below the configured minimum time
step; any retry it issues instead uses step size `Δt/10`, restores the
solution to the last accepted old solution, and its step size is never below
the minimum. -/
theorem newton_failure_policy {M D V : Type} (minimum_time_step : ℚ)
    (n_adaptive_steps max_newton_iter newton_step : ℕ)
    (refinement_needed : SimState M V → Bool)
    (refine : M → M) (dof_map : M → D) (interp : D → D → V → V)
    (s t : SimState M V)
    (h : newton_step = max_newton_iter) :
    (after_newton minimum_time_step n_adaptive_steps max_newton_iter newton_step
        refinement_needed refine dof_map interp s = StepOutcome.fatal ↔
      s.time_step / 10 < minimum_time_step)
    ∧ (after_newton minimum_time_step n_adaptive_steps max_newton_iter newton_step
          refinement_needed refine dof_map interp s = StepOutcome.redo t →
        t.time_step = s.time_step / 10 ∧ t.solution = s.old_solution ∧
          minimum_time_step ≤ t.time_step) := by
  by_cases hmin : s.time_step / 10 < minimum_time_step
  · constructor
    · simp [after_newton, h, hmin]
    · intro hr
      simp [after_newton, h, hmin] at hr
  · constructor
    · simp [after_newton, h, hmin]
    · intro hr
      simp only [after_newton, if_pos h, if_neg hmin, StepOutcome.redo.injEq] at hr
      subst hr
      exact ⟨rfl, rfl, le_of_not_lt hmin⟩

/-- Witness for `newton_failure_policy`: a failed attempt with `Δt = 1`,
minimum step `1/1000`; the retry carries `Δt/10 = 1/10 ≥ 1/1000` and the old
solution. -/
theorem newton_failure_policy_witness :
    ((after_newton (1/1000 : ℚ) 0 3 3 (fun _ => false) (fun m : ℕ => m)
          (fun m : ℕ => m) (fun _ _ v => v)
          (⟨1, 1, 1, 1, false, 0, (5 : ℚ), 7, 9⟩ : SimState ℕ ℚ) =
        StepOutcome.fatal ↔ (1 : ℚ) / 10 < 1/1000)
      ∧ ((⟨1/10, 1/10, 1, 1, true, 0, (7 : ℚ), 7, 9⟩ : SimState ℕ ℚ).time_step
            = (1 : ℚ) / 10 ∧
          (⟨1/10, 1/10, 1, 1, true, 0, (7 : ℚ), 7, 9⟩ : SimState ℕ ℚ).solution
            = (7 : ℚ) ∧
          (1/1000 : ℚ) ≤
            (⟨1/10, 1/10, 1, 1, true, 0, (7 : ℚ), 7, 9⟩ : SimState ℕ ℚ).time_step)) :=
  ⟨(newton_failure_policy (1/1000) 0 3 3 (fun _ => false) (fun m : ℕ => m)
      (fun m : ℕ => m) (fun _ _ v => v) ⟨1, 1, 1, 1, false, 0, 5, 7, 9⟩
      ⟨1/10, 1/10, 1, 1, true, 0, 7, 7, 9⟩ rfl).1,
    (newton_failure_policy (1/1000) 0 3 3 (fun _ => false) (fun m : ℕ => m)
      (fun m : ℕ => m) (fun _ _ v => v) ⟨1, 1, 1, 1, false, 0, 5, 7, 9⟩
      ⟨1/10, 1/10, 1, 1, true, 0, 7, 7, 9⟩ rfl).2
      (by norm_num [after_newton, SimState.mk.injEq])⟩

/-- The redo after a non-converged attempt does not run at the same simulated
time as the failed attempt: with the failed attempt at time `1` and `Δt = 1`
(minimum step `1/1000`), the retry state carries time `1 - 1 + 1/10 = 1/10 ≠ 1`. -/
theorem redo_time_counterexample :
    (match after_newton (1/1000 : ℚ) 0 3 3 (fun _ => false) (fun m : ℕ => m)
        (fun m : ℕ => m) (fun _ _ v => v)
        (⟨1, 1, 1, 1, false, 0, (5 : ℚ), 7, 9⟩ : SimState ℕ ℚ) with
      | StepOutcome.redo t => t.time
      | _ => 0) = 1 / 10 ∧ ((1 : ℚ) / 10) ≠ 1 := by
  norm_num [after_newton]

/-- What the code actually does on a non-converged attempt that is not fatal:
it rolls time back by the failed step and forward by the ten-times-smaller
step — the redo solve runs at time `t_failed − Δt + Δt/10`, with step `Δt/10`
and the solution restored to the last accepted old solution. -/
theorem redo_target_time {M D V : Type} (minimum_time_step : ℚ)
    (n_adaptive_steps max_newton_iter newton_step : ℕ)
    (refinement_needed : SimState M V → Bool)
    (refine : M → M) (dof_map : M → D) (interp : D → D → V → V)
    (s : SimState M V)
    (h : newton_step = max_newton_iter)
    (hmin : ¬ s.time_step / 10 < minimum_time_step) :
    after_newton minimum_time_step n_adaptive_steps max_newton_iter newton_step
        refinement_needed refine dof_map interp s =
      StepOutcome.redo
        { s with
          time := s.time - s.time_step + s.time_step / 10,
          time_step := s.time_step / 10,
          solution := s.old_solution,
          use_old_time_step_phi := true } := by
  simp [after_newton, h, hmin]

/-- Witness for `redo_target_time` at the same concrete failed attempt. -/
theorem redo_target_time_witness :
    after_newton (1/1000 : ℚ) 0 3 3 (fun _ => false) (fun m : ℕ => m)
        (fun m : ℕ => m) (fun _ _ v => v)
        (⟨1, 1, 1, 1, false, 0, (5 : ℚ), 7, 9⟩ : SimState ℕ ℚ) =
      StepOutcome.redo ⟨1 - 1 + 1 / 10, 1 / 10, 1, 1, true, 0, 7, 7, 9⟩ :=
  redo_target_time (1/1000) 0 3 3 (fun _ => false) (fun m : ℕ => m)
    (fun m : ℕ => m) (fun _ _ v => v) ⟨1, 1, 1, 1, false, 0, 5, 7, 9⟩
    rfl (by norm_num)

/-- The refinement-and-transfer sequence: the refined state is obtained by
refining the mesh, rebuilding the degree-of-freedom map of the refined mesh,
and interpolating the three pre-refinement history vectors from the old map
onto the new one — the current solution into `solution`, the old and old-old
ones into `old_solution` and `old_old_solution`; all other state is kept. -/
theorem exectute_adaptive_refinement_spec {M D V : Type}
    (refine : M → M) (dof_map : M → D) (interp : D → D → V → V)
    (s : SimState M V) :
    exectute_adaptive_refinement refine dof_map interp s =
      { s with
        mesh := refine s.mesh,
        solution := interp (dof_map s.mesh) (dof_map (refine s.mesh)) s.solution,
        old_solution :=
          interp (dof_map s.mesh) (dof_map (refine s.mesh)) s.old_solution,
        old_old_solution :=
          interp (dof_map s.mesh) (dof_map (refine s.mesh)) s.old_old_solution } :=
  rfl

/-- When the Newton solve converged (the cap was not hit) and the refiner
signals refinement, the controller redoes the same time step on the refined
mesh: the redo state has the same time value, step size, and step counter. -/
theorem refinement_redo_frame {M D V : Type} (minimum_time_step : ℚ)
    (n_adaptive_steps max_newton_iter newton_step : ℕ)
    (refinement_needed : SimState M V → Bool)
    (refine : M → M) (dof_map : M → D) (interp : D → D → V → V)
    (s : SimState M V)
    (h : newton_step ≠ max_newton_iter)
    (ha : 0 < n_adaptive_steps)
    (hr : refinement_needed s = true) :
    after_newton minimum_time_step n_adaptive_steps max_newton_iter newton_step
        refinement_needed refine dof_map interp s =
      StepOutcome.redo (exectute_adaptive_refinement refine dof_map interp s)
    ∧ (exectute_adaptive_refinement refine dof_map interp s).time = s.time
    ∧ (exectute_adaptive_refinement refine dof_map interp s).time_step = s.time_step
    ∧ (exectute_adaptive_refinement refine dof_map interp s).time_step_number =
        s.time_step_number := by
  refine ⟨?_, rfl, rfl, rfl⟩
  simp [after_newton, h, ha, hr]

/-- Witness for `refinement_redo_frame`: a converged attempt (2 of 3 Newton
iterations used) with refinement signalled. -/
theorem refinement_redo_frame_witness :
    (after_newton (1/1000 : ℚ) 2 3 2 (fun _ => true) (fun m : ℕ => m + 1)
        (fun m : ℕ => m) (fun _ _ v => v + 1)
        (⟨1, 1, 1, 4, false, 0, (5 : ℚ), 7, 9⟩ : SimState ℕ ℚ) =
      StepOutcome.redo (exectute_adaptive_refinement (fun m : ℕ => m + 1)
        (fun m : ℕ => m) (fun _ _ v => v + 1)
        (⟨1, 1, 1, 4, false, 0, (5 : ℚ), 7, 9⟩ : SimState ℕ ℚ)))
    ∧ (exectute_adaptive_refinement (fun m : ℕ => m + 1) (fun m : ℕ => m)
        (fun _ _ v => v + 1)
        (⟨1, 1, 1, 4, false, 0, (5 : ℚ), 7, 9⟩ : SimState ℕ ℚ)).time = 1
    ∧ (exectute_adaptive_refinement (fun m : ℕ => m + 1) (fun m : ℕ => m)
        (fun _ _ v => v + 1)
        (⟨1, 1, 1, 4, false, 0, (5 : ℚ), 7, 9⟩ : SimState ℕ ℚ)).time_step = 1
    ∧ (exectute_adaptive_refinement (fun m : ℕ => m + 1) (fun m : ℕ => m)
        (fun _ _ v => v + 1)
        (⟨1, 1, 1, 4, false, 0, (5 : ℚ), 7, 9⟩ : SimState ℕ ℚ)).time_step_number = 4 :=
  refinement_redo_frame (1/1000) 2 3 2 (fun _ => true) (fun m : ℕ => m + 1)
    (fun m : ℕ => m) (fun _ _ v => v + 1) ⟨1, 1, 1, 4, false, 0, 5, 7, 9⟩
    (by decide) (by decide) rfl

/-- The per-time-step pressure update does not zero the pressure on intact
cells: a cell whose mean phase-field value is `1` (not below the threshold
`0.9`) still receives the full pressure value `10^5 ≠ 0` at its dof. -/
theorem pressure_threshold_counterexample :
    ¬ mean_phi_value ⟨[1, 1, 1, 1], [0]⟩ < 9/10 ∧
      run_pressure_update (10^5) [⟨[1, 1, 1, 1], [0]⟩] = [(0, 10^5)] ∧
      ((10 : ℚ)^5) ≠ 0 := by
  refine ⟨by norm_num [mean_phi_value], by rfl, by norm_num⟩

/-- The function `impose_pressure_values` implements the threshold rule —
every write it performs targets a dof of one of the cells and carries the full
value when that cell's mean phase field is below `0.9` and zero otherwise —
while the update the run loop actually performs each time step assigns the
full time-dependent value to every pressure dof unconditionally. -/
theorem pressure_update_amended (max_value : ℚ) (cells : List PressureCell) :
    (∀ p ∈ impose_pressure_values max_value cells,
      ∃ c, c ∈ cells ∧ p.1 ∈ c.local_dof_indices ∧
        p.2 = if mean_phi_value c < 9/10 then max_value else 0)
    ∧ ∀ p ∈ run_pressure_update max_value cells, p.2 = max_value := by
  constructor
  · intro p hp
    simp only [impose_pressure_values, List.mem_flatMap, List.mem_map] at hp
    obtain ⟨c, hc, i, hi, rfl⟩ := hp
    exact ⟨c, hc, hi, rfl⟩
  · intro p hp
    simp only [run_pressure_update, List.mem_flatMap, List.mem_map] at hp
    obtain ⟨c, hc, i, hi, rfl⟩ := hp
    rfl

/-- Witness for `pressure_update_amended`: a single cracked cell (mean phase
field `0 < 0.9`) whose dof `3` receives the full value under both updates. -/
theorem pressure_update_amended_witness :
    (∃ c, c ∈ [(⟨[0, 0], [3]⟩ : PressureCell)] ∧ (3 : ℕ) ∈ c.local_dof_indices ∧
        ((10 : ℚ)^5) = if mean_phi_value c < 9/10 then (10 : ℚ)^5 else 0)
    ∧ ((3 : ℕ), (10 : ℚ)^5).2 = (10 : ℚ)^5 :=
  ⟨(pressure_update_amended ((10 : ℚ)^5) [⟨[0, 0], [3]⟩]).1 (3, (10 : ℚ)^5)
      (by norm_num [impose_pressure_values, mean_phi_value]),
    (pressure_update_amended ((10 : ℚ)^5) [⟨[0, 0], [3]⟩]).2 (3, (10 : ℚ)^5)
      (by norm_num [run_pressure_update])⟩

/-- Once `arg_number` has moved past `1`, the remaining iterations of the
argument loop never change `filename`. -/
theorem parse_args_loop_const (rest : List String) :
    ∀ (n : ℕ) (filename : String), 1 < n →
      parse_args_loop rest n filename = filename := by
  induction rest with
  | nil => intro n f _; rfl
  | cons a t ih =>
    intro n f h
    have hne : ¬ n = 1 := by omega
    rw [parse_args_loop, if_neg hne]
    exact ih (n + 1) f (by omega)

/-- The parser returns the first non-program argument as the file name,
silently ignoring all later arguments; with fewer than two arguments it exits
the process with status 1 after printing the message. -/
theorem parse_command_line_spec (prog first : String) (rest argv : List String)
    (h : argv.length < 2) :
    parse_command_line (prog :: first :: rest) = ParseResult.ok first ∧
      parse_command_line argv = ParseResult.exited 1 ("specify the file name") := by
  constructor
  · simp only [parse_command_line, List.length_cons]
    rw [if_neg (by omega)]
    simp only [List.drop_succ_cons, List.drop_zero]
    rw [parse_args_loop, if_pos rfl]
    rw [parse_args_loop_const rest 2 first (by omega)]
  · simp [parse_command_line, h]

/-- Witness for `parse_command_line_spec`: `argv = [prog, case.prm, extra]`
returns `case.prm`; `argv = [prog]` exits with status 1. -/
theorem parse_command_line_spec_witness :
    parse_command_line (["prog", "case.prm", "extra"]) = ParseResult.ok ("case.prm") ∧
      parse_command_line (["prog"]) = ParseResult.exited 1 ("specify the file name") :=
  parse_command_line_spec ("prog") ("case.prm") (["extra"]) (["prog"]) (by decide)

end EagleFrac
